import Mathlib

/-
Verification of the points-tracker application core (src/points-tracker.pyw):
the ledger store (update_points / update_points_display), date validation
(is_valid_date via datetime.strptime with format "%Y-%m-%d"), the heatmap
intensity computation (paintEvent), the hit test (mousePressEvent /
mouseMoveEvent geometry) and week navigation (show_previous_week /
show_next_week).

Modelling conventions:
- SQLite rows of the single table are a list of (date, points) records in
  rowid (insertion) order; SELECT ... fetchone is the first match, UPDATE
  rewrites every row with the given date, DELETE removes every such row,
  INSERT appends.
- Python integers are Int / Nat; Python floor division (//) is Int.fdiv.
- The intensity expression int((points / target) * 155) is evaluated by
  Python in IEEE-754 binary64 arithmetic: the integer division is the exact
  quotient correctly rounded to the nearest double (ties to even), the
  multiplication by the exactly representable 155.0 is again correctly
  rounded, and int() truncates toward zero.  Doubles are modelled as exact
  numerator-denominator fractions and each rounding step is performed
  explicitly (roundD below), faithful throughout the normal range of
  binary64, which contains every quotient the application can feed it short
  of overflow.
- datetime.strptime("%Y-%m-%d") is modelled by the exact regular expression
  CPython compiles for it: year \d\d\d\d, month 1[0-2]|0[1-9]|[1-9],
  day 3[01]|[12]\d|0[1-9]|[1-9]| [1-9], whole string consumed, followed by
  the datetime constructor range check (year at least 1, day at most the
  month length).  ASCII digits only (the UI supplies ASCII).
-/

namespace PointsTracker

/-- Numeric value of an ASCII digit character. -/
def digitVal (c : Char) : Nat := c.toNat - 48

/-- Gregorian leap-year rule, as used by Python datetime. -/
def isLeap (y : Nat) : Bool :=
  if y % 4 = 0 ∧ (y % 100 ≠ 0 ∨ y % 400 = 0) then true else false

/-- Number of days in a month, as enforced by the Python datetime constructor. -/
def daysInMonth (y m : Nat) : Nat :=
  if m = 2 then (if isLeap y then 29 else 28)
  else if m = 4 ∨ m = 6 ∨ m = 9 ∨ m = 11 then 30
  else 31

/-- The month alternation of CPython strptime for %m: 1[0-2]|0[1-9]|[1-9].
Returns the month value and the unconsumed characters.  The alternatives are
tried in regex order; since every longer alternative ends in a digit and the
following pattern character is the literal dash, regex backtracking can never
succeed where this first-match parse fails. -/
def matchMonth : List Char → Option (Nat × List Char)
  | [] => none
  | [c] => if '1' ≤ c ∧ c ≤ '9' then some (digitVal c, []) else none
  | c1 :: c2 :: rest =>
    if c1 = '1' ∧ '0' ≤ c2 ∧ c2 ≤ '2' then some (10 + digitVal c2, rest)
    else if c1 = '0' ∧ '1' ≤ c2 ∧ c2 ≤ '9' then some (digitVal c2, rest)
    else if '1' ≤ c1 ∧ c1 ≤ '9' then some (digitVal c1, c2 :: rest)
    else none

/-- The day alternation of CPython strptime for %d:
3[01]|[12]\d|0[1-9]|[1-9]| [1-9], in regex order. -/
def matchDay : List Char → Option (Nat × List Char)
  | [] => none
  | [c] => if '1' ≤ c ∧ c ≤ '9' then some (digitVal c, []) else none
  | c1 :: c2 :: rest =>
    if c1 = '3' ∧ (c2 = '0' ∨ c2 = '1') then some (30 + digitVal c2, rest)
    else if (c1 = '1' ∨ c1 = '2') ∧ c2.isDigit then
      some (10 * digitVal c1 + digitVal c2, rest)
    else if c1 = '0' ∧ '1' ≤ c2 ∧ c2 ≤ '9' then some (digitVal c2, rest)
    else if '1' ≤ c1 ∧ c1 ≤ '9' then some (digitVal c1, c2 :: rest)
    else if c1 = ' ' ∧ '1' ≤ c2 ∧ c2 ≤ '9' then some (digitVal c2, rest)
    else none

/-- Full match of the strptime pattern for "%Y-%m-%d": exactly four year
digits, a dash, the month alternation, a dash, the day alternation, end of
string. -/
def parseYMD : List Char → Option (Nat × Nat × Nat)
  | a :: b :: c :: d :: '-' :: rest =>
    if a.isDigit ∧ b.isDigit ∧ c.isDigit ∧ d.isDigit then
      match matchMonth rest with
      | some (m, sep :: rest2) =>
        if sep = '-' then
          match matchDay rest2 with
          | some (dd, []) =>
            some (1000 * digitVal a + 100 * digitVal b + 10 * digitVal c + digitVal d, m, dd)
          | _ => none
        else none
      | _ => none
    else none
  | _ => none

/-- is_valid_date from the source: datetime.strptime(date_str, "%Y-%m-%d")
succeeds.  The regex constrains the shape; the datetime constructor then
requires year at least MINYEAR = 1 and the day to exist in the month. -/
def is_valid_date (s : String) : Bool :=
  match parseYMD s.data with
  | some (y, m, d) => if 1 ≤ y ∧ d ≤ daysInMonth y m then true else false
  | none => false

/-- Python str.isdigit on the ASCII strings produced by the points spin box:
nonempty and all characters are decimal digits. -/
def str_isdigit (s : String) : Bool :=
  if s.data = [] then false else s.data.all Char.isDigit

/-- Python int() on a digit string: base-10 value. -/
def strToNat (s : String) : Nat :=
  s.data.foldl (fun a c => 10 * a + digitVal c) 0

/-- One row of the points table (the integer id column is a rowid alias that
never participates in the logic). -/
structure Row where
  date : String
  points : Int
deriving DecidableEq, Repr

/-- SELECT points FROM points WHERE date = ? followed by fetchone: the first
row (in rowid order) whose date matches. -/
def selectPoints (s : List Row) (d : String) : Option Int :=
  (s.find? (fun r => r.date = d)).map Row.points

/-- UPDATE points SET points = ? WHERE date = ?. -/
def updateRows (s : List Row) (d : String) (v : Int) : List Row :=
  s.map (fun r => if r.date = d then { r with points := v } else r)

/-- DELETE FROM points WHERE date = ?. -/
def deleteRows (s : List Row) (d : String) : List Row :=
  s.filter (fun r => r.date ≠ d)

/-- INSERT INTO points (date, points) VALUES (?, ?). -/
def insertRow (s : List Row) (d : String) (v : Int) : List Row :=
  s ++ [{ date := d, points := v }]

/-- The user-visible outcome of update_points, one constructor per message
box in the source. -/
inductive Outcome where
  /-- "Please enter a valid date in YYYY-MM-DD format." -/
  | invalidDate
  /-- "Please enter a valid number of points." -/
  | invalidAmount
  /-- "Updated points for ... Total points: n" -/
  | updated (total : Int)
  /-- "Points for ... have been deleted." -/
  | deleted
  /-- "Points added successfully! Total points: n" -/
  | added (total : Int)
  /-- "No points recorded for this date." -/
  | noPointsRecorded
  /-- Existing row but operation is neither 1 nor -1: the source shows no
  message and performs no write. -/
  | silent
deriving DecidableEq, Repr

/-- PointsTracker.update_points: validate the date, validate the points
string, then select the row for the date and update, delete, insert or
report, exactly as the source branches do.  Returns the new table contents
and the outcome. -/
def update_points (s : List Row) (operation : Int) (date pts : String) :
    List Row × Outcome :=
  if is_valid_date date then
    if str_isdigit pts then
      match selectPoints s date with
      | some existing =>
        if operation = 1 then
          (updateRows s date (existing + strToNat pts),
           Outcome.updated (existing + strToNat pts))
        else if operation = -1 then
          if existing - strToNat pts ≤ 0 then
            (deleteRows s date, Outcome.deleted)
          else
            (updateRows s date (existing - strToNat pts),
             Outcome.updated (existing - strToNat pts))
        else (s, Outcome.silent)
      | none =>
        if operation = 1 then
          (insertRow s date (strToNat pts), Outcome.added (strToNat pts))
        else (s, Outcome.noPointsRecorded)
    else (s, Outcome.invalidAmount)
  else (s, Outcome.invalidDate)

/-- The dict comprehension of update_points_display: date -> points, a later
row overriding an earlier one with the same date.  Lookup of one key. -/
def getAllLookup (s : List Row) (d : String) : Option Int :=
  (s.reverse.find? (fun r => r.date = d)).map Row.points

/-- points_data.get(date, 0) as used by paintEvent and the tooltip. -/
def cellPoints (s : List Row) (d : String) : Int :=
  (getAllLookup s d).getD 0

/-- Floor of the base-2 logarithm, computed by halving with explicit fuel so
that the kernel can evaluate it; fuel 4096 covers every magnitude far beyond
the overflow threshold of binary64. -/
def log2Fuel : Nat → Nat → Nat
  | 0, _ => 0
  | fuel + 1, n => if 2 ≤ n then log2Fuel fuel (n / 2) + 1 else 0

/-- Bit-length-minus-one of a positive natural number. -/
def natLog2 (n : Nat) : Nat := log2Fuel 4096 n

/-- Round the nonnegative fraction n / d to the nearest integer, ties to
even: the rounding rule IEEE-754 applies to the scaled mantissa. -/
def rneFrac (n d : Nat) : Nat :=
  let q := n / d
  let r := n % d
  if 2 * r < d then q
  else if d < 2 * r then q + 1
  else if q % 2 = 0 then q else q + 1

/-- Multiply the fraction n / d by 2 ^ k (k possibly negative), returning the
new numerator and denominator. -/
def scaleFrac (n d : Nat) (k : Int) : Nat × Nat :=
  if 0 ≤ k then (n * 2 ^ k.toNat, d) else (n, d * 2 ^ (-k).toNat)

/-- Floor of the base-2 logarithm of the positive fraction n / d.  The bit
lengths of n and d bracket it within one; a single comparison settles it. -/
def ilog2Frac (n d : Nat) : Int :=
  let e0 : Int := (natLog2 n : Int) - (natLog2 d : Int)
  if 0 ≤ e0 then (if n < d * 2 ^ e0.toNat then e0 - 1 else e0)
  else (if n * 2 ^ (-e0).toNat < d then e0 - 1 else e0)

/-- Round the positive fraction n / d to the nearest IEEE-754 binary64 value
(ties to even), returned as an exact numerator-denominator pair: scale into
[2^52, 2^53), round the 53-bit mantissa, scale back.  Faithful on the
normal range of binary64. -/
def roundPosFrac (n d : Nat) : Nat × Nat :=
  let e := ilog2Frac n d
  let m := rneFrac (scaleFrac n d (52 - e)).1 (scaleFrac n d (52 - e)).2
  if 0 ≤ e - 52 then (m * 2 ^ (e - 52).toNat, 1)
  else (m, 2 ^ (52 - e).toNat)

/-- Round the exact fraction n / d (d positive) to the nearest binary64
value, ties to even, as a signed exact fraction. -/
def roundD (n : Int) (d : Nat) : Int × Nat :=
  if n = 0 then (0, 1)
  else if 0 < n then
    (((roundPosFrac n.toNat d).1 : Int), (roundPosFrac n.toNat d).2)
  else
    (-((roundPosFrac (-n).toNat d).1 : Int), (roundPosFrac (-n).toNat d).2)

/-- The color channel computed in paintEvent for a day with positive points:
min(155, int((points / target_points_per_day) * 155)) when the target is
positive, 0 otherwise.  The quotient points / target is the exact quotient
correctly rounded to binary64 (CPython true division of ints is correctly
rounded), the product with the exactly representable 155.0 is correctly
rounded again, and int() truncates toward zero. -/
def color_value (points target : Int) : Int :=
  if 0 < target then
    let q := roundD points target.toNat
    let r := roundD (q.1 * 155) q.2
    min 155 (r.1.tdiv (r.2 : Int))
  else 0

/-- The cell edge shared by paintEvent, mouseMoveEvent and mousePressEvent:
size = min(width // 6, height - 5). -/
def hm_size (w h : Int) : Int := min (w.fdiv 6) (h - 5)

/-- Left edge of the centred 7-cell row:
(width - (size * 7 + spacing * 6)) // 2 with spacing = 5. -/
def hm_start_x (w h : Int) : Int := (w - (hm_size w h * 7 + 5 * 6)).fdiv 2

/-- Top edge of the row: (height - size) // 4. -/
def hm_y0 (w h : Int) : Int := (h - hm_size w h).fdiv 4

/-- The square-selection logic shared by mouseMoveEvent and mousePressEvent:
inside the vertical band [y0, y0 + size) (with 0 <= y0, the chained Python
comparison) the index is (x - start_x) // (size + spacing), accepted when it
lies in [0, 7). -/
def hitTest (w h ex ey : Int) : Option Int :=
  if 0 ≤ hm_y0 w h ∧ hm_y0 w h ≤ ey ∧ ey < hm_y0 w h + hm_size w h then
    if 0 ≤ (ex - hm_start_x w h).fdiv (hm_size w h + 5) ∧
        (ex - hm_start_x w h).fdiv (hm_size w h + 5) < 7 then
      some ((ex - hm_start_x w h).fdiv (hm_size w h + 5))
    else none
  else none

/-- show_next_week: current_week_start + timedelta(weeks=1).  The anchor is a
timestamp measured in whole days; timedelta arithmetic is exact. -/
def show_next_week (weekStart : Int) : Int := weekStart + 7

/-- show_previous_week: current_week_start - timedelta(weeks=1). -/
def show_previous_week (weekStart : Int) : Int := weekStart - 7

/-- An ASCII digit character from the low decimal digit of n. -/
def digitChar (n : Nat) : Char := Char.ofNat (48 + n % 10)

/-- strftime("%Y-%m-%d") as used by paintEvent and the click handlers to
build lookup keys: four year digits, dash, two zero-padded month digits,
dash, two zero-padded day digits.  Faithful for years 1000-9999 and month
and day below 100, which covers every date the widget can display. -/
def fmtDate (y m d : Nat) : String :=
  String.mk [digitChar (y / 1000), digitChar (y / 100), digitChar (y / 10), digitChar y,
             '-', digitChar (m / 10), digitChar m, '-', digitChar (d / 10), digitChar d]

/-- The dates column of the table, in row order. -/
def datesOf (s : List Row) : List String := s.map Row.date

/-- Table states reachable from the empty table through update_points calls
with arbitrary operation, date string and points string. -/
inductive Reachable : List Row → Prop where
  | empty : Reachable []
  | step (s : List Row) (op : Int) (d p : String) (hs : Reachable s) :
      Reachable (update_points s op d p).1

/-- Table states reachable from the empty table through update_points calls
whose points string has a positive numeric value. -/
inductive ReachablePos : List Row → Prop where
  | empty : ReachablePos []
  | step (s : List Row) (op : Int) (d p : String) (hp : 0 < strToNat p)
      (hs : ReachablePos s) : ReachablePos (update_points s op d p).1

/-! Helper lemmas about the row-list operations. -/

theorem selectPoints_none_iff {s : List Row} {d : String} :
    selectPoints s d = none ↔ ∀ r ∈ s, ¬ r.date = d := by
  simp [selectPoints, List.find?_eq_none]

theorem updateRows_eq_of_none {s : List Row} {d : String} {v : Int}
    (h : ∀ r ∈ s, ¬ r.date = d) : updateRows s d v = s := by
  unfold updateRows
  induction s with
  | nil => rfl
  | cons a t ih =>
    have ha : ¬ a.date = d := h a (List.mem_cons_self a t)
    simp only [List.map_cons, if_neg ha, List.cons.injEq, true_and]
    exact ih fun r hr => h r (List.mem_cons_of_mem a hr)

theorem deleteRows_eq_of_none {s : List Row} {d : String}
    (h : ∀ r ∈ s, ¬ r.date = d) : deleteRows s d = s := by
  unfold deleteRows
  refine List.filter_eq_self.mpr fun r hr => ?_
  simpa using h r hr

theorem selectPoints_append_single {s : List Row} {d : String} {v : Int}
    (h : ∀ r ∈ s, ¬ r.date = d) :
    selectPoints (s ++ [{ date := d, points := v }]) d = some v := by
  unfold selectPoints
  induction s with
  | nil => simp
  | cons a t ih =>
    have ha : ¬ a.date = d := h a (List.mem_cons_self a t)
    rw [List.cons_append, List.find?_cons_of_neg _ (by simpa using ha)]
    exact ih fun r hr => h r (List.mem_cons_of_mem a hr)

theorem updateRows_append_single {s : List Row} {d : String} {v w : Int}
    (h : ∀ r ∈ s, ¬ r.date = d) :
    updateRows (s ++ [{ date := d, points := v }]) d w
      = s ++ [{ date := d, points := w }] := by
  unfold updateRows
  rw [List.map_append]
  have h1 : updateRows s d w = s := updateRows_eq_of_none h
  unfold updateRows at h1
  rw [h1]
  simp

theorem deleteRows_append_single {s : List Row} {d : String} {v : Int}
    (h : ∀ r ∈ s, ¬ r.date = d) :
    deleteRows (s ++ [{ date := d, points := v }]) d = s := by
  unfold deleteRows
  rw [List.filter_append]
  have h1 : deleteRows s d = s := deleteRows_eq_of_none h
  unfold deleteRows at h1
  rw [h1]
  simp

theorem getAllLookup_append_single (s : List Row) (d : String) (v : Int) :
    getAllLookup (s ++ [{ date := d, points := v }]) d = some v := by
  simp [getAllLookup]

/-! Claim theorems. -/

/-- C1: for a valid date d absent from the table and positive magnitudes
p1 >= p2, add(d, p1) followed by remove(d, p2) leaves the table with the
record (d, p1 - p2) appended when p1 > p2, and restores exactly the original
table, with no record for d, when p1 = p2. -/
theorem add_then_remove_spec (s : List Row) (d s1 s2 : String)
    (hd : is_valid_date d = true)
    (habs : selectPoints s d = none)
    (hg1 : str_isdigit s1 = true) (hg2 : str_isdigit s2 = true)
    (_hp1 : 0 < strToNat s1) (_hp2 : 0 < strToNat s2)
    (_hge : strToNat s2 ≤ strToNat s1) :
    (strToNat s2 < strToNat s1 →
      (update_points (update_points s 1 d s1).1 (-1) d s2).1
        = s ++ [{ date := d, points := (strToNat s1 : Int) - (strToNat s2 : Int) }]) ∧
    (strToNat s2 = strToNat s1 →
      (update_points (update_points s 1 d s1).1 (-1) d s2).1 = s ∧
      selectPoints (update_points (update_points s 1 d s1).1 (-1) d s2).1 d = none) := by
  have hnone : ∀ r ∈ s, ¬ r.date = d := selectPoints_none_iff.mp habs
  have hadd : (update_points s 1 d s1).1 = s ++ [{ date := d, points := (strToNat s1 : Int) }] := by
    simp [update_points, hd, hg1, habs, insertRow]
  have hsel2 : selectPoints (s ++ [{ date := d, points := (strToNat s1 : Int) }]) d
      = some (strToNat s1 : Int) := selectPoints_append_single hnone
  constructor
  · intro hlt
    have hpos : ¬ ((strToNat s1 : Int) - (strToNat s2 : Int) ≤ 0) := by omega
    have hupd := updateRows_append_single
      (v := (strToNat s1 : Int)) (w := (strToNat s1 : Int) - (strToNat s2 : Int)) hnone
    rw [hadd]
    simp [update_points, hd, hg2, hsel2, hpos, hupd]
  · intro heq
    have hz : (strToNat s1 : Int) - (strToNat s2 : Int) ≤ 0 := by omega
    have hdel := deleteRows_append_single (v := (strToNat s1 : Int)) hnone
    have hres : (update_points (update_points s 1 d s1).1 (-1) d s2).1 = s := by
      rw [hadd]
      simp [update_points, hd, hg2, hsel2, hz, hdel]
    exact ⟨hres, by rw [hres]; exact habs⟩

/-- C1 witness: evaluated at the empty table, d = 2024-01-05, p1 = 5, p2 = 3. -/
theorem add_then_remove_spec_witness :
    (update_points (update_points [] 1 "2024-01-05" "5").1 (-1) "2024-01-05" "3").1
      = [] ++ [{ date := "2024-01-05", points := (strToNat "5" : Int) - (strToNat "3" : Int) }] :=
  (add_then_remove_spec [] "2024-01-05" "5" "3" (by decide) (by decide) (by decide)
    (by decide) (by decide) (by decide) (by decide)).1 (by decide)

/-- C5: adding a positive magnitude p for a valid date d with no existing
record makes the mapping built by update_points_display contain d -> p. -/
theorem add_new_date_getAll (s : List Row) (d sp : String)
    (hd : is_valid_date d = true)
    (habs : selectPoints s d = none)
    (hg : str_isdigit sp = true)
    (_hp : 0 < strToNat sp) :
    getAllLookup (update_points s 1 d sp).1 d = some (strToNat sp : Int) := by
  have hadd : (update_points s 1 d sp).1 = s ++ [{ date := d, points := (strToNat sp : Int) }] := by
    simp [update_points, hd, hg, habs, insertRow]
  rw [hadd]
  exact getAllLookup_append_single s d _

/-- C5 witness: evaluated at the empty table, d = 2024-01-05, p = 3. -/
theorem add_new_date_getAll_witness :
    getAllLookup (update_points [] 1 "2024-01-05" "3").1 "2024-01-05" = some 3 := by
  have h := add_new_date_getAll [] "2024-01-05" "3" (by decide) (by decide) (by decide) (by decide)
  simpa using h

/-- C6: removing from a valid date with no existing record is a no-op with
the "No points recorded for this date." outcome and an unchanged table. -/
theorem remove_absent_noop (s : List Row) (d sp : String)
    (hd : is_valid_date d = true)
    (habs : selectPoints s d = none)
    (hg : str_isdigit sp = true)
    (_hp : 0 < strToNat sp) :
    update_points s (-1) d sp = (s, Outcome.noPointsRecorded) := by
  simp only [update_points, hd, hg, habs, if_true]
  rw [if_neg (by norm_num : ¬ ((-1 : Int) = 1))]

/-- C6 witness: evaluated at a one-row table and an absent date. -/
theorem remove_absent_noop_witness :
    update_points [{ date := "2024-01-04", points := 2 }] (-1) "2024-01-05" "3"
      = ([{ date := "2024-01-04", points := 2 }], Outcome.noPointsRecorded) :=
  remove_absent_noop [{ date := "2024-01-04", points := 2 }] "2024-01-05" "3"
    (by decide) (by decide) (by decide) (by decide)

/-- C7: every date string that fails validation - in particular the
well-formed but non-existent calendar date 2024-02-30 - makes update_points
return the invalid-date outcome and the table exactly as it was, whatever
the table, operation and points string are: the date check precedes all
database work, so no mutation is ever attempted. -/
theorem invalid_calendar_date_rejected :
    is_valid_date "2024-02-30" = false ∧
    ∀ (ds : String), is_valid_date ds = false →
      ∀ (s : List Row) (op : Int) (pts : String),
        update_points s op ds pts = (s, Outcome.invalidDate) := by
  refine ⟨by decide, ?_⟩
  intro ds hinv s op pts
  simp [update_points, hinv]

/-- C7 witness: the universal statement applied to the invalid date
2023-04-31 (April has 30 days) on a one-row table. -/
theorem invalid_calendar_date_rejected_witness :
    update_points [{ date := "2024-01-04", points := 2 }] 1 "2023-04-31" "7"
      = ([{ date := "2024-01-04", points := 2 }], Outcome.invalidDate) :=
  invalid_calendar_date_rejected.2 "2023-04-31" (by decide)
    [{ date := "2024-01-04", points := 2 }] 1 "7"

/-- C2 counterexample: with points = 5 and dailyGoal = 10 the source truncates
int(0.5 * 155) = 77, not the claimed clamp(round(5 / 10 * 155), 0, 155) = 78. -/
theorem intensity_half_goal_cex :
    color_value 5 10 = 77 ∧ color_value 5 10 ≠ 78 := by decide

theorem roundD_fst_nonneg (d : Nat) {n : Int} (hn : 0 ≤ n) :
    0 ≤ (roundD n d).1 := by
  unfold roundD
  rcases eq_or_lt_of_le hn with h | h
  · rw [if_pos h.symm]
  · rw [if_neg h.ne', if_pos h]
    exact Int.natCast_nonneg _

/-- C2 amended: the intensity is min(155, int(points / dailyGoal * 155))
evaluated in binary64 float arithmetic with final truncation toward zero,
not clamp of round-half-up; points = 5 with dailyGoal = 10 gives 77 (not
78), points = 20 with dailyGoal = 10 gives 155, points = 21 with
dailyGoal = 31 gives 104 (the float quotient makes the product
104.99999999999999), the intensity always lies within [0, 155] for
nonnegative points, and a zero goal forces intensity 0 regardless of
points. -/
theorem intensity_float_truncation_spec :
    color_value 5 10 = 77 ∧ color_value 20 10 = 155 ∧ color_value 21 31 = 104 ∧
    (∀ p : Int, color_value p 0 = 0) ∧
    (∀ p g : Int, 0 ≤ p → 0 ≤ color_value p g ∧ color_value p g ≤ 155) := by
  refine ⟨by decide, by decide, by decide, fun p => by simp [color_value], ?_⟩
  intro p g hp
  unfold color_value
  by_cases hg : 0 < g
  · rw [if_pos hg]
    dsimp only
    have h1 : 0 ≤ (roundD p g.toNat).1 := roundD_fst_nonneg _ hp
    have h2 : 0 ≤ (roundD ((roundD p g.toNat).1 * 155) (roundD p g.toNat).2).1 :=
      roundD_fst_nonneg _ (mul_nonneg h1 (by norm_num))
    have h3 : (0 : Int)
        ≤ (((roundD ((roundD p g.toNat).1 * 155) (roundD p g.toNat).2).2 : Nat) : Int) :=
      Int.natCast_nonneg _
    refine ⟨le_min (by norm_num) ?_, min_le_left _ _⟩
    rw [Int.tdiv_eq_ediv h2 h3]
    exact Int.ediv_nonneg h2 h3
  · rw [if_neg hg]
    norm_num

/-- C2 witness: the clamp bounds evaluated at points = 7, dailyGoal = 3. -/
theorem intensity_float_truncation_spec_witness :
    0 ≤ color_value 7 3 ∧ color_value 7 3 ≤ 155 :=
  intensity_float_truncation_spec.2.2.2.2 7 3 (by norm_num)

/-- C8: moving the heatmap one week forward and then one week back restores
the original week anchor exactly. -/
theorem shift_week_roundtrip (weekStart : Int) :
    show_previous_week (show_next_week weekStart) = weekStart := by
  simp [show_previous_week, show_next_week]

/-! Invariant machinery for the reachability claims. -/

theorem pos_of_selectPoints_some {s : List Row} {d : String} {v : Int}
    (ih : ∀ r ∈ s, 0 < r.points) (h : selectPoints s d = some v) : 0 < v := by
  unfold selectPoints at h
  rcases Option.map_eq_some'.mp h with ⟨r, hfind, hpt⟩
  rw [← hpt]
  exact ih r (List.mem_of_find?_eq_some hfind)

theorem pos_updateRows {s : List Row} {d : String} {v : Int}
    (ih : ∀ r ∈ s, 0 < r.points) (hv : 0 < v) :
    ∀ r ∈ updateRows s d v, 0 < r.points := by
  intro r hr
  rcases List.mem_map.mp hr with ⟨r0, hr0, rfl⟩
  by_cases hc : r0.date = d
  · rw [if_pos hc]; exact hv
  · rw [if_neg hc]; exact ih r0 hr0

theorem pos_deleteRows {s : List Row} {d : String}
    (ih : ∀ r ∈ s, 0 < r.points) :
    ∀ r ∈ deleteRows s d, 0 < r.points :=
  fun r hr => ih r (List.mem_of_mem_filter hr)

/-- One update_points call with a positive magnitude keeps every stored
points value positive. -/
theorem update_points_preserves_pos (s : List Row) (op : Int) (d p : String)
    (hp : 0 < strToNat p) (ih : ∀ r ∈ s, 0 < r.points) :
    ∀ r ∈ (update_points s op d p).1, 0 < r.points := by
  by_cases hvd : is_valid_date d
  case neg => simpa [update_points, hvd] using ih
  by_cases hdg : str_isdigit p
  case neg => simpa [update_points, hvd, hdg] using ih
  rcases hsel : selectPoints s d with _ | existing
  · by_cases hop : op = 1
    · have hres : (update_points s op d p).1 = insertRow s d (strToNat p) := by
        simp [update_points, hvd, hdg, hsel, hop]
      rw [hres]
      intro r hr
      rcases List.mem_append.mp hr with hr | hr
      · exact ih r hr
      · rcases List.mem_singleton.mp hr with rfl
        show (0 : Int) < (strToNat p : Int)
        exact_mod_cast hp
    · simpa [update_points, hvd, hdg, hsel, hop] using ih
  · have hex : 0 < existing := pos_of_selectPoints_some ih hsel
    by_cases hop : op = 1
    · have hres : (update_points s op d p).1 = updateRows s d (existing + strToNat p) := by
        simp [update_points, hvd, hdg, hsel, hop]
      rw [hres]
      exact pos_updateRows ih (by omega)
    · by_cases hop2 : op = -1
      · by_cases hz : existing - (strToNat p : Int) ≤ 0
        · have hres : (update_points s op d p).1 = deleteRows s d := by
            simp [update_points, hvd, hdg, hsel, hop, hop2, hz]
          rw [hres]
          exact pos_deleteRows ih
        · have hres : (update_points s op d p).1 = updateRows s d (existing - strToNat p) := by
            simp [update_points, hvd, hdg, hsel, hop, hop2, hz]
          rw [hres]
          exact pos_updateRows ih (by omega)
      · simpa [update_points, hvd, hdg, hsel, hop, hop2] using ih

/-- C3 counterexample: the validation accepts the magnitude string "0" (the
spin box minimum; isdigit holds), and from the empty table the single add
operation update_points([], 1, 2024-01-05, "0") INSERTs and reaches a state
holding a record whose points value is 0, not positive. -/
theorem reachable_zero_points_cex :
    str_isdigit "0" = true ∧
    (update_points [] 1 "2024-01-05" "0").1 = [{ date := "2024-01-05", points := 0 }] ∧
    Reachable [{ date := "2024-01-05", points := 0 }] ∧
    ¬ (∀ r ∈ ([{ date := "2024-01-05", points := 0 }] : List Row), 0 < r.points) := by
  refine ⟨by decide, by decide, ?_, by decide⟩
  have h := Reachable.step [] 1 "2024-01-05" "0" Reachable.empty
  have he : (update_points [] 1 "2024-01-05" "0").1
      = [{ date := "2024-01-05", points := 0 }] := by decide
  rwa [he] at h

/-- C3 amended: in every state reachable from the empty table through
update_points calls whose points magnitude is positive, every stored record
has points strictly greater than zero (a record whose total would drop to
zero or below is deleted instead of stored). -/
theorem reachable_pos_points_invariant (s : List Row) (h : ReachablePos s) :
    ∀ r ∈ s, 0 < r.points := by
  induction h with
  | empty => simp
  | step s op d p hp _hs ih => exact update_points_preserves_pos s op d p hp ih

/-- C3 witness: the invariant evaluated on the state reached by one add of
magnitude 3. -/
theorem reachable_pos_points_invariant_witness :
    (0 : Int) < ({ date := "2024-01-05", points := 3 } : Row).points :=
  reachable_pos_points_invariant (update_points [] 1 "2024-01-05" "3").1
    (ReachablePos.step [] 1 "2024-01-05" "3" (by decide) ReachablePos.empty)
    { date := "2024-01-05", points := 3 } (by decide)

theorem datesOf_updateRows (s : List Row) (d : String) (v : Int) :
    datesOf (updateRows s d v) = datesOf s := by
  unfold datesOf updateRows
  rw [List.map_map]
  refine List.map_congr_left fun r _ => ?_
  by_cases hc : r.date = d <;> simp [hc]

theorem datesOf_deleteRows_sublist (s : List Row) (d : String) :
    (datesOf (deleteRows s d)).Sublist (datesOf s) :=
  (List.filter_sublist s).map Row.date

theorem not_mem_datesOf {s : List Row} {d : String}
    (h : selectPoints s d = none) : d ∉ datesOf s := by
  intro hmem
  rcases List.mem_map.mp hmem with ⟨r, hr, rfl⟩
  exact selectPoints_none_iff.mp h r hr rfl

/-- One update_points call preserves the at-most-one-record-per-date
invariant. -/
theorem update_points_preserves_nodup (s : List Row) (op : Int) (d p : String)
    (ih : (datesOf s).Nodup) : (datesOf (update_points s op d p).1).Nodup := by
  by_cases hvd : is_valid_date d
  case neg => simpa [update_points, hvd] using ih
  by_cases hdg : str_isdigit p
  case neg => simpa [update_points, hvd, hdg] using ih
  rcases hsel : selectPoints s d with _ | existing
  · by_cases hop : op = 1
    · have hres : (update_points s op d p).1 = insertRow s d (strToNat p) := by
        simp [update_points, hvd, hdg, hsel, hop]
      rw [hres]
      have hd : d ∉ datesOf s := not_mem_datesOf hsel
      have hne : datesOf (insertRow s d (strToNat p)) = datesOf s ++ [d] := by
        simp [datesOf, insertRow]
      rw [hne]
      refine List.Nodup.append ih (List.nodup_singleton d) ?_
      intro a ha hb
      rcases List.mem_singleton.mp hb with rfl
      exact hd ha
    · simpa [update_points, hvd, hdg, hsel, hop] using ih
  · by_cases hop : op = 1
    · have hres : (update_points s op d p).1 = updateRows s d (existing + strToNat p) := by
        simp [update_points, hvd, hdg, hsel, hop]
      rw [hres, datesOf_updateRows]
      exact ih
    · by_cases hop2 : op = -1
      · by_cases hz : existing - (strToNat p : Int) ≤ 0
        · have hres : (update_points s op d p).1 = deleteRows s d := by
            simp [update_points, hvd, hdg, hsel, hop, hop2, hz]
          rw [hres]
          exact (datesOf_deleteRows_sublist s d).nodup ih
        · have hres : (update_points s op d p).1 = updateRows s d (existing - strToNat p) := by
            simp [update_points, hvd, hdg, hsel, hop, hop2, hz]
          rw [hres, datesOf_updateRows]
          exact ih
      · simpa [update_points, hvd, hdg, hsel, hop, hop2] using ih

/-- C9: every table state reachable from the empty table through
update_points calls has pairwise distinct dates, even though the schema
itself declares no uniqueness constraint on the date column. -/
theorem reachable_dates_nodup (s : List Row) (h : Reachable s) :
    (datesOf s).Nodup := by
  induction h with
  | empty => simp [datesOf]
  | step s op d p _hs ih => exact update_points_preserves_nodup s op d p ih

/-- C9 witness: the invariant evaluated on the state reached by one add. -/
theorem reachable_dates_nodup_witness :
    (datesOf (update_points [] 1 "2024-01-05" "3").1).Nodup :=
  reachable_dates_nodup (update_points [] 1 "2024-01-05" "3").1
    (Reachable.step [] 1 "2024-01-05" "3" Reachable.empty)

/-! Hit-test geometry. -/

theorem ediv_eq_iff_interval {x a i : Int} (ha : 0 < a) :
    x / a = i ↔ i * a ≤ x ∧ x < (i + 1) * a := by
  constructor
  · rintro rfl
    exact ⟨(Int.le_ediv_iff_mul_le ha).mp le_rfl,
           (Int.ediv_lt_iff_lt_mul ha).mp (lt_add_one _)⟩
  · rintro ⟨h1, h2⟩
    have l1 : i ≤ x / a := (Int.le_ediv_iff_mul_le ha).mpr h1
    have l2 : x / a < i + 1 := (Int.ediv_lt_iff_lt_mul ha).mpr h2
    omega

/-- Within the minimum widget size enforced by setMinimumSize(350, 40) the
cell edge is at least 35 pixels. -/
theorem hm_size_ge (w h : Int) (hw : 350 ≤ w) (hh : 40 ≤ h) :
    35 ≤ hm_size w h := by
  unfold hm_size
  refine le_min ?_ (by omega)
  rw [Int.fdiv_eq_ediv _ (by norm_num)]
  omega

/-- C4 counterexample: at the minimum widget size (350 x 40, size 35,
spacing 5, row start 37) the coordinate x = 313 lies past the right edge of
the 7th cell (312) inside the trailing spacing-width gap, yet the hit test
returns index 6 instead of none. -/
theorem hitTest_trailing_gap_cex :
    hitTest 350 40 313 15 = some 6 ∧
    hm_start_x 350 40 + (7 * hm_size 350 40 + 6 * 5) ≤ 313 ∧
    313 < hm_start_x 350 40 + 7 * (hm_size 350 40 + 5) := by decide

/-- C4 amended: the hit test answers index i exactly when the pointer is in
the vertical band [y0, y0 + size) and x lies in the half-open horizontal
span [rowStartX + i * (size + spacing), rowStartX + (i + 1) * (size + spacing))
for some i in [0, 7).  Each cell therefore also claims the spacing-width gap
to its right; in particular a coordinate up to spacing pixels past the row's
right edge still answers index 6 rather than none.  None is answered exactly
when the floor index falls outside [0, 7) or the pointer leaves the band. -/
theorem hitTest_some_iff (w h ex ey i : Int) (hw : 350 ≤ w) (hh : 40 ≤ h) :
    hitTest w h ex ey = some i ↔
      (0 ≤ hm_y0 w h ∧ hm_y0 w h ≤ ey ∧ ey < hm_y0 w h + hm_size w h ∧
       0 ≤ i ∧ i < 7 ∧
       hm_start_x w h + i * (hm_size w h + 5) ≤ ex ∧
       ex < hm_start_x w h + (i + 1) * (hm_size w h + 5)) := by
  have hsz : 35 ≤ hm_size w h := hm_size_ge w h hw hh
  have haw : (0 : Int) < hm_size w h + 5 := by omega
  have hfd : (ex - hm_start_x w h).fdiv (hm_size w h + 5)
      = (ex - hm_start_x w h) / (hm_size w h + 5) :=
    Int.fdiv_eq_ediv _ (by omega)
  unfold hitTest
  rw [hfd]
  by_cases hband : 0 ≤ hm_y0 w h ∧ hm_y0 w h ≤ ey ∧ ey < hm_y0 w h + hm_size w h
  · rw [if_pos hband]
    by_cases hidx : 0 ≤ (ex - hm_start_x w h) / (hm_size w h + 5) ∧
        (ex - hm_start_x w h) / (hm_size w h + 5) < 7
    · rw [if_pos hidx]
      constructor
      · intro hsome
        have hi : (ex - hm_start_x w h) / (hm_size w h + 5) = i := Option.some.inj hsome
        have hint := (ediv_eq_iff_interval haw).mp hi
        exact ⟨hband.1, hband.2.1, hband.2.2, hi ▸ hidx.1, hi ▸ hidx.2,
          by linarith [hint.1], by linarith [hint.2]⟩
      · rintro ⟨-, -, -, -, -, h6, h7⟩
        have hi : (ex - hm_start_x w h) / (hm_size w h + 5) = i :=
          (ediv_eq_iff_interval haw).mpr ⟨by linarith, by linarith⟩
        rw [hi]
    · rw [if_neg hidx]
      constructor
      · intro hsome
        simp at hsome
      · rintro ⟨-, -, -, h4, h5, h6, h7⟩
        exfalso
        apply hidx
        have hi : (ex - hm_start_x w h) / (hm_size w h + 5) = i :=
          (ediv_eq_iff_interval haw).mpr ⟨by linarith, by linarith⟩
        rw [hi]
        exact ⟨h4, h5⟩
  · rw [if_neg hband]
    constructor
    · intro hsome
      simp at hsome
    · rintro ⟨h1, h2, h3, -⟩
      exact absurd ⟨h1, h2, h3⟩ hband

/-- C4 witness: the horizontal centre of the first cell at the minimum
widget size, inside the band, answers index 0. -/
theorem hitTest_some_iff_witness : hitTest 350 40 54 15 = some 0 :=
  (hitTest_some_iff 350 40 54 15 0 (by norm_num) (by norm_num)).mpr (by decide)

/-! Key-format mismatch between storage and display. -/

theorem fmtDate_ne_nonpadded (y m d : Nat) : fmtDate y m d ≠ "2024-1-5" := by
  intro hcontra
  have h1 : (fmtDate y m d).length = 10 := rfl
  rw [hcontra] at h1
  exact absurd h1 (by decide)

/-- C10: the date string 2024-1-5 is a valid calendar date for strptime
despite its non-padded month and day, an add stores a record under exactly
that key, and no zero-padded strftime key the weekly heatmap looks up can
equal it, so the record contributes nothing to any displayed day cell. -/
theorem nonpadded_date_invisible :
    is_valid_date "2024-1-5" = true ∧
    (update_points [] 1 "2024-1-5" "3").1 = [{ date := "2024-1-5", points := 3 }] ∧
    (∀ (y m d : Nat) (p : Int) (s : List Row),
      1000 ≤ y → y ≤ 9999 → m ≤ 12 → d ≤ 31 →
      cellPoints (s ++ [{ date := "2024-1-5", points := p }]) (fmtDate y m d)
        = cellPoints s (fmtDate y m d)) := by
  refine ⟨by decide, by decide, ?_⟩
  intro y m d p s _hy1 _hy2 _hm _hd
  unfold cellPoints getAllLookup
  rw [List.reverse_append]
  simp only [List.reverse_singleton, List.singleton_append]
  rw [List.find?_cons_of_neg _ (by simpa using (fmtDate_ne_nonpadded y m d).symm)]

/-- C10 witness: a table holding only the non-padded record shows zero
points for the very day it was meant to record. -/
theorem nonpadded_date_invisible_witness :
    cellPoints [{ date := "2024-1-5", points := 3 }] (fmtDate 2024 1 5)
      = cellPoints [] (fmtDate 2024 1 5) :=
  nonpadded_date_invisible.2.2 2024 1 5 3 []
    (by norm_num) (by norm_num) (by norm_num) (by norm_num)

end PointsTracker
